import Mathlib

/-!
# Verification of the dashboard ingestion/normalization/view layer

Shallow embedding of `src/streamlit_app.py`: the two source loaders
(`load_azure_table_data`, `load_loganalytics_data`), the normalization steps
they perform (timestamp parsing via `pd.to_datetime`, severity mapping via
`SEVERITY_LEVELS`, boolean coercion via `astype(bool)`), and the view
computations (windowed counts, trend series, recent-activity projection).

Modelling conventions:
* A cell value is `Value` (Python scalars as stored in a DataFrame cell);
  `Value.null` models Python `None` / pandas missing (`NaT`).
* A `DataFrame` is a column-name list plus rows of cells aligned positionally
  with the columns (pandas invariant: every row has one cell per column).
* `pd.to_datetime`'s string grammar is a pandas-library external; it is
  modelled as an explicit parser argument `p : String → Option Int` (UTC
  epoch seconds).  What the embedding keeps faithful is the control flow:
  with the default `errors=raise`, one unparseable non-null string makes the
  whole column conversion raise (here: return `Except.error`), which the
  loader's `except Exception` handler turns into an empty table plus an
  error message.
* `st.error` / `st.warning` display calls are recorded as the `msg` field of
  `LoadResult` (only the kind matters to the claims, not the f-string text).
-/

/-- A scalar cell value, as Python/pandas stores it in a DataFrame cell.
`null` models Python `None` and pandas `NaT`/missing. -/
inductive Value where
  | null : Value
  | str (s : String) : Value
  | int (n : Int) : Value
  | bool (b : Bool) : Value
  | ts (t : Int) : Value
  deriving DecidableEq, Repr

/-- In-memory table: declared column names plus rows, each row positionally
aligned with `cols` (the pandas DataFrame representation). -/
structure DataFrame where
  cols : List String
  rows : List (List Value)
  deriving DecidableEq, Repr

/-- `pd.DataFrame()`: the empty frame both loaders return on failure. -/
def DataFrame.empty : DataFrame := ⟨[], []⟩

/-- Kind of message the loader displayed (`st.error` vs `st.warning`). -/
inductive MsgKind where
  | error : MsgKind
  | warning : MsgKind
  deriving DecidableEq, Repr

/-- What a loader hands back: the returned DataFrame (the only thing the
caller receives) together with the message it displayed, if any. -/
structure LoadResult where
  table : DataFrame
  msg : Option MsgKind
  deriving DecidableEq, Repr

/-- First-match association lookup on a raw entity (a Python dict). -/
def lookupKey (k : String) : List (String × Value) → Option Value
  | [] => none
  | (k', v) :: rest => if k' = k then some v else lookupKey k rest

/-- Accumulate the keys of one record, in order, skipping seen keys. -/
def addKeys (acc : List String) : List (String × Value) → List String
  | [] => acc
  | (k, _) :: rest => addKeys (if k ∈ acc then acc else acc ++ [k]) rest

/-- Column set of `pd.DataFrame(list_of_dicts)`: union of the records' keys
in first-seen order. -/
def unionKeys (recs : List (List (String × Value))) : List String :=
  recs.foldl addKeys []

/-- One row of `pd.DataFrame(list_of_dicts)`: the record's value for each
declared column, with `null` (NaN) backfilled where the record lacks the key. -/
def recordRow (cols : List String) (rec : List (String × Value)) : List Value :=
  cols.map (fun c => (lookupKey c rec).getD Value.null)

/-- `pd.DataFrame(list_of_dicts)`: columns are the union of keys, missing
fields are backfilled as `null`. -/
def fromRecords (recs : List (List (String × Value))) : DataFrame :=
  ⟨unionKeys recs, recs.map (recordRow (unionKeys recs))⟩

/-- Value of column `name` in a row (positional lookup aligned with `cols`). -/
def rowGet : List String → List Value → String → Option Value
  | c :: cs, v :: vs, name => if c = name then some v else rowGet cs vs name
  | _, _, _ => none

/-- Rewrite the cell of column `name` in one row with `f`. -/
def mapRowAt : List String → List Value → String → (Value → Value) → List Value
  | c :: cs, v :: vs, name, f =>
      if c = name then f v :: vs else v :: mapRowAt cs vs name f
  | _, vs, _, _ => vs

/-- `df[name] = df[name].apply(f)` for a total `f`. -/
def mapCol (df : DataFrame) (name : String) (f : Value → Value) : DataFrame :=
  ⟨df.cols, df.rows.map (fun r => mapRowAt df.cols r name f)⟩

/-- Rewrite the cell of column `name` in one row with a fallible `f`. -/
def mapRowAtE : List String → List Value → String → (Value → Except String Value) →
    Except String (List Value)
  | c :: cs, v :: vs, name, f =>
      if c = name then (f v).map (· :: vs)
      else (mapRowAtE cs vs name f).map (v :: ·)
  | _, vs, _, _ => .ok vs

/-- Apply the fallible cell rewrite to every row; the first failing row
aborts. -/
def mapRowsE (cols : List String) (name : String)
    (f : Value → Except String Value) : List (List Value) →
    Except String (List (List Value))
  | [] => .ok []
  | r :: rs =>
      match mapRowAtE cols r name f with
      | .error e => .error e
      | .ok r' =>
          match mapRowsE cols name f rs with
          | .error e => .error e
          | .ok rs' => .ok (r' :: rs')

/-- Column-wide fallible conversion (`pd.to_datetime` over a column with
`errors=raise`): the first failing cell aborts the whole conversion. -/
def mapColE (df : DataFrame) (name : String) (f : Value → Except String Value) :
    Except String DataFrame :=
  match mapRowsE df.cols name f df.rows with
  | .error e => .error e
  | .ok rs => .ok ⟨df.cols, rs⟩

/-- `pd.to_datetime(v, utc=True)` on one cell, parser `p` standing for the
pandas string grammar: `None`→`NaT`, timestamps pass through, ints are epoch
instants, an unparseable string or a non-datetime-like value raises. -/
def toDatetimeValue (p : String → Option Int) : Value → Except String Value
  | .null => .ok .null
  | .ts t => .ok (.ts t)
  | .int n => .ok (.ts n)
  | .str s =>
      match p s with
      | some t => .ok (.ts t)
      | none => .error "unparseable datetime string"
  | .bool _ => .error "cannot convert bool to datetime"

/-- Python `bool(x)` truthiness, applied per cell by `astype(bool)` on an
object-dtype column. -/
def pyBool : Value → Bool
  | .null => false
  | .str s => s ≠ ""
  | .int n => n ≠ 0
  | .bool b => b
  | .ts _ => true

/-- The `SEVERITY_LEVELS` dict of the source: `{1: "Critical", 2: "Warning",
3: "Info"}`. -/
def SEVERITY_LEVELS : List (Int × String) :=
  [(1, "Critical"), (2, "Warning"), (3, "Info")]

/-- Integer-keyed dict lookup. -/
def lookupInt (k : Int) : List (Int × String) → Option String
  | [] => none
  | (k', v) :: rest => if k' = k then some v else lookupInt k rest

/-- `df['SeverityLevel'].map(SEVERITY_LEVELS).fillna(df['SeverityLevel'])`
on one cell: mapped codes become their label, everything else (unmapped
codes, non-int values, nulls) keeps its original value. -/
def mapSeverityValue (v : Value) : Value :=
  match v with
  | .int n =>
      match lookupInt n SEVERITY_LEVELS with
      | some label => .str label
      | none => v
  | _ => v

/-- `load_azure_table_data`: fetch entities from the table store (the fetch
outcome is the argument: `Except.error` models a transport/auth exception),
build the DataFrame, convert `TimeAlertReceived` with `pd.to_datetime`
(raising on bad cells), map `SeverityLevel`.  Every exception path is caught
by the function's `except Exception` handler, which displays `st.error` and
returns `pd.DataFrame()`. -/
def load_azure_table_data (p : String → Option Int)
    (fetch : Except String (List (List (String × Value)))) : LoadResult :=
  match fetch with
  | .error _ => ⟨DataFrame.empty, some .error⟩
  | .ok entities =>
      let df := fromRecords entities
      match (if "TimeAlertReceived" ∈ df.cols then
               mapColE df "TimeAlertReceived" (toDatetimeValue p)
             else .ok df) with
      | .error _ => ⟨DataFrame.empty, some .error⟩
      | .ok df1 =>
          let df2 := if "SeverityLevel" ∈ df1.cols then
                       mapCol df1 "SeverityLevel" mapSeverityValue
                     else df1
          ⟨df2, none⟩

/-- One result table of the Log Analytics envelope: the declared column
names (`[col['name'] for col in ...['columns']]`) and the row arrays. -/
structure QTable where
  columns : List String
  rows : List (List Value)
  deriving DecidableEq, Repr

/-- Outcome of the HTTP POST to the query API, as the loader's `try` body
observes it: a `requests` exception (transport error or `raise_for_status`),
a JSON decode failure of the body, or a decoded JSON object whose `tables`
key is absent (`none`) or present with a list of tables. -/
inductive FetchResult where
  | httpError (status : Nat) : FetchResult
  | badJson : FetchResult
  | ok (tables : Option (List QTable)) : FetchResult
  deriving DecidableEq, Repr

/-- `load_loganalytics_data`: POST the fixed query; on a usable envelope
build the DataFrame from the FIRST table's declared columns and rows,
convert `timestamp` with `pd.to_datetime`, coerce `success` with
`astype(bool)`.  `requests` exceptions and JSON decode failures display
`st.error` and return `pd.DataFrame()`; an envelope without a non-empty
`tables` list displays `st.warning` and returns `pd.DataFrame()`; a
row/column arity mismatch (which makes `pd.DataFrame(rows, columns=...)`
raise) or a bad timestamp cell is caught by the final `except Exception`
handler — `st.error` and `pd.DataFrame()`. -/
def load_loganalytics_data (p : String → Option Int) (resp : FetchResult) :
    LoadResult :=
  match resp with
  | .httpError _ => ⟨DataFrame.empty, some .error⟩
  | .badJson => ⟨DataFrame.empty, some .error⟩
  | .ok tables? =>
      match tables? with
      | some (t :: _) =>
          if t.rows.all (fun r => r.length = t.columns.length) then
            let df : DataFrame := ⟨t.columns, t.rows⟩
            match (if "timestamp" ∈ df.cols then
                     mapColE df "timestamp" (toDatetimeValue p)
                   else .ok df) with
            | .error _ => ⟨DataFrame.empty, some .error⟩
            | .ok df1 =>
                let df2 := if "success" ∈ df1.cols then
                             mapCol df1 "success" (fun v => .bool (pyBool v))
                           else df1
                ⟨df2, none⟩
          else ⟨DataFrame.empty, some .error⟩
      | _ => ⟨DataFrame.empty, some .warning⟩

/-! ## View computations (the inline expressions of the dashboard tabs) -/

/-- The timestamp cell of a row as a comparable key: a parsed instant gives
`some t`, `NaT`/missing/non-timestamp gives `none`. -/
def tsKey (cols : List String) (col : String) (row : List Value) : Option Int :=
  match rowGet cols row col with
  | some (.ts t) => some t
  | _ => none

/-- `df[df[col] >= cutoff]`: keep the rows whose timestamp cell compares
`≥ cutoff`; a `NaT` (null) cell compares false and is dropped. -/
def pastWindow (df : DataFrame) (col : String) (cutoff : Int) : DataFrame :=
  ⟨df.cols, df.rows.filter (fun r =>
      match tsKey df.cols col r with
      | some t => cutoff ≤ t
      | none => false)⟩

/-- `len(alerts_df[alerts_df['TimeAlertReceived'] >= now - window])` — the
windowed alert count of the Overview tab (`past7_alerts_df`,
`past1_alerts_df`). -/
def windowedCount (df : DataFrame) (now window : Int) : Nat :=
  (pastWindow df "TimeAlertReceived" (now - window)).rows.length

/-- Seconds in one day / in seven days (`pd.Timedelta(days=...)`). -/
def oneDay : Int := 86400

def sevenDays : Int := 7 * 86400

/-- `.dt.date` of a row's timestamp: the UTC calendar day (floor-divided
epoch day), `none` for `NaT`/missing. -/
def rowDate (cols : List String) (col : String) (row : List Value) : Option Int :=
  match tsKey cols col row with
  | some t => some (Int.fdiv t 86400)
  | none => none

/-- Insert a date into an ascending duplicate-free date list. -/
def insertAsc (x : Int) : List Int → List Int
  | [] => [x]
  | y :: ys => if x < y then x :: y :: ys
               else if x = y then y :: ys
               else y :: insertAsc x ys

/-- The distinct dates present in the table, ascending (the group keys of
`groupby('Date')`, whose output is sorted by key and drops null keys). -/
def sortedDates (df : DataFrame) (col : String) : List Int :=
  df.rows.foldr (fun r acc =>
      match rowDate df.cols col r with
      | some d => insertAsc d acc
      | none => acc) []

/-- Number of rows whose timestamp falls on calendar date `d`. -/
def countDate (df : DataFrame) (col : String) (d : Int) : Nat :=
  (df.rows.filter (fun r => rowDate df.cols col r = some d)).length

/-- `alerts_df.groupby('Date').size().reset_index(name='Count')` — the
trend series: one `(date, count)` pair per distinct date present, ascending. -/
def trend_df (df : DataFrame) (col : String) : List (Int × Nat) :=
  (sortedDates df col).map (fun d => (d, countDate df col d))

/-- Descending comparison on timestamp keys with nulls last
(`sort_values(..., ascending=False)`, default `na_position='last'`):
`ordGE a b` holds when `a` sorts no later than `b`. -/
def ordGE (a b : Option Int) : Bool :=
  match a, b with
  | some x, some y => decide (y ≤ x)
  | some _, none => true
  | none, none => true
  | none, some _ => false

/-- Insert a row into a list already sorted descending by timestamp key. -/
def insertDesc (cols : List String) (col : String) (r : List Value) :
    List (List Value) → List (List Value)
  | [] => [r]
  | s :: ss => if ordGE (tsKey cols col r) (tsKey cols col s) then r :: s :: ss
               else s :: insertDesc cols col r ss

/-- `df.sort_values(col, ascending=False)` on the rows: descending by
timestamp, null timestamps last. -/
def sortDescRows (cols : List String) (col : String)
    (rows : List (List Value)) : List (List Value) :=
  rows.foldr (insertDesc cols col) []

/-- `alerts_df.sort_values('TimeAlertReceived', ascending=False).head(5)` —
the Recent Activity projection. -/
def recent_alerts (df : DataFrame) : DataFrame :=
  ⟨df.cols, (sortDescRows df.cols "TimeAlertReceived" df.rows).take 5⟩

/-- The display column list of the Support Alerts tab. -/
def columns_to_display : List String :=
  ["TimeAlertReceived", "Source", "SeverityLevel", "ErrorCode",
   "ErrorMessage", "Link", "StackTrace", "AdditionalData"]

/-! ## Helper lemmas -/

/-- A positional lookup succeeds on every declared column of an aligned row. -/
lemma rowGet_isSome_of_mem {cols : List String} {row : List Value} {c : String}
    (hc : c ∈ cols) (hlen : row.length = cols.length) :
    (rowGet cols row c).isSome := by
  induction cols generalizing row with
  | nil => cases hc
  | cons c0 cs ih =>
    cases row with
    | nil => simp at hlen
    | cons v vs =>
      simp only [rowGet]
      by_cases h : c0 = c
      · simp [h]
      · have : c ∈ cs := by
          rcases List.mem_cons.mp hc with h' | h'
          · exact absurd h'.symm h
          · exact h'
        simp only [if_neg h]
        exact ih this (by simpa using hlen)

/-- `mapRowAt` preserves the arity of the row. -/
lemma length_mapRowAt (cols : List String) (row : List Value) (name : String)
    (f : Value → Value) : (mapRowAt cols row name f).length = row.length := by
  induction cols generalizing row with
  | nil => cases row <;> simp [mapRowAt]
  | cons c cs ih =>
    cases row with
    | nil => simp [mapRowAt]
    | cons v vs =>
      simp only [mapRowAt]
      by_cases h : c = name
      · simp [h]
      · simp [h, ih]

/-- A successful `mapRowAtE` preserves the arity of the row. -/
lemma length_mapRowAtE {cols : List String} {row row' : List Value}
    {name : String} {f : Value → Except String Value}
    (h : mapRowAtE cols row name f = .ok row') : row'.length = row.length := by
  induction cols generalizing row row' with
  | nil =>
    cases row <;> simp only [mapRowAtE] at h <;> cases h <;> rfl
  | cons c cs ih =>
    cases row with
    | nil => simp only [mapRowAtE] at h; cases h; rfl
    | cons v vs =>
      simp only [mapRowAtE] at h
      by_cases hc : c = name
      · rw [if_pos hc] at h
        cases hf : f v with
        | error e => rw [hf] at h; cases h
        | ok w => rw [hf] at h; cases h; simp
      · rw [if_neg hc] at h
        cases hrec : mapRowAtE cs vs name f with
        | error e => rw [hrec] at h; cases h
        | ok vs' => rw [hrec] at h; cases h; simpa using ih hrec

/-- A successful `mapRowsE` preserves the arity of every row. -/
lemma length_mapRowsE {cols : List String} {name : String}
    {f : Value → Except String Value} {rows rows' : List (List Value)}
    (h : mapRowsE cols name f rows = .ok rows')
    (hall : ∀ r ∈ rows, r.length = cols.length) :
    ∀ r ∈ rows', r.length = cols.length := by
  induction rows generalizing rows' with
  | nil => simp only [mapRowsE] at h; cases h; intro r hr; cases hr
  | cons r0 rs ih =>
    simp only [mapRowsE] at h
    cases h0 : mapRowAtE cols r0 name f with
    | error e => rw [h0] at h; cases h
    | ok r0' =>
      rw [h0] at h
      cases hrec : mapRowsE cols name f rs with
      | error e => rw [hrec] at h; cases h
      | ok rs' =>
        rw [hrec] at h; cases h
        intro r hr
        rcases List.mem_cons.mp hr with h' | h'
        · subst h'
          rw [length_mapRowAtE h0]
          exact hall r0 (List.mem_cons_self _ _)
        · exact ih hrec (fun r hr => hall r (List.mem_cons_of_mem _ hr)) r h'

/-- Every row of `fromRecords` is aligned with the declared columns. -/
lemma fromRecords_aligned (recs : List (List (String × Value))) :
    ∀ r ∈ (fromRecords recs).rows, r.length = (fromRecords recs).cols.length := by
  intro r hr
  simp only [fromRecords] at hr ⊢
  rcases List.mem_map.mp hr with ⟨rec, _, rfl⟩
  simp [recordRow]

/-- `mapCol` preserves alignment of rows with columns. -/
lemma mapCol_aligned {df : DataFrame} {name : String} {f : Value → Value}
    (h : ∀ r ∈ df.rows, r.length = df.cols.length) :
    ∀ r ∈ (mapCol df name f).rows, r.length = (mapCol df name f).cols.length := by
  intro r hr
  simp only [mapCol] at hr ⊢
  rcases List.mem_map.mp hr with ⟨r0, hr0, rfl⟩
  rw [length_mapRowAt]
  exact h r0 hr0

/-- A successful `mapColE` preserves alignment of rows with columns. -/
lemma mapColE_aligned {df df' : DataFrame} {name : String}
    {f : Value → Except String Value} (h : mapColE df name f = .ok df')
    (hall : ∀ r ∈ df.rows, r.length = df.cols.length) :
    ∀ r ∈ df'.rows, r.length = df'.cols.length := by
  simp only [mapColE] at h
  cases hrows : mapRowsE df.cols name f df.rows with
  | error e => rw [hrows] at h; cases h
  | ok rs =>
    rw [hrows] at h; cases h
    exact length_mapRowsE hrows hall

/-- The alert loader only ever returns tables whose rows are aligned with
the declared columns. -/
lemma load_azure_aligned (p : String → Option Int)
    (fetch : Except String (List (List (String × Value)))) :
    ∀ r ∈ (load_azure_table_data p fetch).table.rows,
      r.length = (load_azure_table_data p fetch).table.cols.length := by
  cases fetch with
  | error e => intro r hr; cases hr
  | ok entities =>
    simp only [load_azure_table_data]
    cases hstep : (if "TimeAlertReceived" ∈ (fromRecords entities).cols then
        mapColE (fromRecords entities) "TimeAlertReceived" (toDatetimeValue p)
      else .ok (fromRecords entities)) with
    | error e => intro r hr; cases hr
    | ok df1 =>
      have hdf1 : ∀ r ∈ df1.rows, r.length = df1.cols.length := by
        by_cases hmem : "TimeAlertReceived" ∈ (fromRecords entities).cols
        · rw [if_pos hmem] at hstep
          exact mapColE_aligned hstep (fromRecords_aligned entities)
        · rw [if_neg hmem] at hstep
          cases hstep
          exact fromRecords_aligned entities
      by_cases hsev : "SeverityLevel" ∈ df1.cols
      · simpa [hsev] using
          @mapCol_aligned df1 "SeverityLevel" mapSeverityValue hdf1
      · simpa [hsev] using hdf1

/-- The query loader only ever returns tables whose rows are aligned with
the declared columns. -/
lemma load_loganalytics_aligned (p : String → Option Int) (resp : FetchResult) :
    ∀ r ∈ (load_loganalytics_data p resp).table.rows,
      r.length = (load_loganalytics_data p resp).table.cols.length := by
  cases resp with
  | httpError s => intro r hr; cases hr
  | badJson => intro r hr; cases hr
  | ok tables? =>
    match tables? with
    | none => intro r hr; cases hr
    | some [] => intro r hr; cases hr
    | some (t :: rest) =>
      simp only [load_loganalytics_data]
      by_cases hlen : t.rows.all (fun r => r.length = t.columns.length)
      · rw [if_pos hlen]
        have hbase : ∀ r ∈ (DataFrame.mk t.columns t.rows).rows,
            r.length = (DataFrame.mk t.columns t.rows).cols.length := by
          intro r hr
          simpa using of_decide_eq_true (List.all_eq_true.mp hlen r hr)
        cases hstep : (if "timestamp" ∈ (DataFrame.mk t.columns t.rows).cols then
            mapColE (DataFrame.mk t.columns t.rows) "timestamp" (toDatetimeValue p)
          else .ok (DataFrame.mk t.columns t.rows)) with
        | error e => intro r hr; cases hr
        | ok df1 =>
          have hdf1 : ∀ r ∈ df1.rows, r.length = df1.cols.length := by
            by_cases hmem : "timestamp" ∈ (DataFrame.mk t.columns t.rows).cols
            · rw [if_pos hmem] at hstep
              exact mapColE_aligned hstep hbase
            · rw [if_neg hmem] at hstep
              cases hstep
              exact hbase
          by_cases hsucc : "success" ∈ df1.cols
          · simpa [hsucc] using
              @mapCol_aligned df1 "success" (fun v => Value.bool (pyBool v)) hdf1
          · simpa [hsucc] using hdf1
      · rw [if_neg hlen]
        intro r hr; cases hr

/-- Filtering with a stronger predicate keeps no more rows. -/
lemma length_filter_mono {α : Type} {p q : α → Bool} (l : List α)
    (h : ∀ x, p x = true → q x = true) :
    (l.filter p).length ≤ (l.filter q).length := by
  induction l with
  | nil => simp
  | cons a l ih =>
    by_cases hp : p a = true
    · rw [List.filter_cons_of_pos hp, List.filter_cons_of_pos (h a hp)]
      simpa using ih
    · rw [List.filter_cons_of_neg (by simpa using hp)]
      by_cases hq : q a = true
      · rw [List.filter_cons_of_pos hq]
        exact ih.trans (Nat.le_succ _)
      · rw [List.filter_cons_of_neg (by simpa using hq)]
        exact ih

/-- Membership in `insertAsc`. -/
lemma mem_insertAsc {x a : Int} {l : List Int} :
    a ∈ insertAsc x l ↔ a = x ∨ a ∈ l := by
  induction l with
  | nil => simp [insertAsc]
  | cons y ys ih =>
    simp only [insertAsc]
    by_cases h1 : x < y
    · simp [h1, List.mem_cons]
    · by_cases h2 : x = y
      · subst h2
        rw [if_neg h1, if_pos rfl]
        simp only [List.mem_cons]
        tauto
      · simp only [if_neg h1, if_neg h2, List.mem_cons, ih]
        tauto

/-- `insertAsc` preserves strict ascending sortedness. -/
lemma pairwise_insertAsc {x : Int} {l : List Int}
    (h : l.Pairwise (· < ·)) : (insertAsc x l).Pairwise (· < ·) := by
  induction l with
  | nil => simp [insertAsc]
  | cons y ys ih =>
    rcases List.pairwise_cons.mp h with ⟨hy, hys⟩
    simp only [insertAsc]
    by_cases h1 : x < y
    · rw [if_pos h1]
      refine List.pairwise_cons.mpr ⟨?_, h⟩
      intro b hb
      rcases List.mem_cons.mp hb with rfl | hb'
      · exact h1
      · exact h1.trans (hy b hb')
    · by_cases h2 : x = y
      · rw [if_neg h1, if_pos h2]; exact h
      · rw [if_neg h1, if_neg h2]
        have hyx : y < x := by omega
        refine List.pairwise_cons.mpr ⟨?_, ih hys⟩
        intro b hb
        rcases mem_insertAsc.mp hb with rfl | hb'
        · exact hyx
        · exact hy b hb'

/-- The distinct-date list of the trend series is strictly ascending. -/
lemma pairwise_sortedDates (df : DataFrame) (col : String) :
    (sortedDates df col).Pairwise (· < ·) := by
  unfold sortedDates
  induction df.rows with
  | nil => simp
  | cons r rs ih =>
    simp only [List.foldr_cons]
    cases rowDate df.cols col r with
    | none => exact ih
    | some d => exact pairwise_insertAsc ih

/-- A date appears in the trend series' key list exactly when some row
carries it. -/
lemma mem_sortedDates {df : DataFrame} {col : String} {d : Int} :
    d ∈ sortedDates df col ↔ ∃ r ∈ df.rows, rowDate df.cols col r = some d := by
  unfold sortedDates
  induction df.rows with
  | nil => simp
  | cons r rs ih =>
    simp only [List.foldr_cons]
    cases hr : rowDate df.cols col r with
    | none =>
      rw [ih]
      constructor
      · rintro ⟨r', hr', hd⟩
        exact ⟨r', List.mem_cons_of_mem _ hr', hd⟩
      · rintro ⟨r', hr', hd⟩
        rcases List.mem_cons.mp hr' with rfl | h'
        · rw [hr] at hd; cases hd
        · exact ⟨r', h', hd⟩
    | some d0 =>
      rw [mem_insertAsc, ih]
      constructor
      · rintro (rfl | ⟨r', hr', hd⟩)
        · exact ⟨r, List.mem_cons_self _ _, hr⟩
        · exact ⟨r', List.mem_cons_of_mem _ hr', hd⟩
      · rintro ⟨r', hr', hd⟩
        rcases List.mem_cons.mp hr' with rfl | h'
        · left; rw [hr] at hd; exact (Option.some.inj hd).symm
        · right; exact ⟨r', h', hd⟩

/-- A date carried by at least one row has a positive count. -/
lemma countDate_pos {df : DataFrame} {col : String} {d : Int}
    (h : ∃ r ∈ df.rows, rowDate df.cols col r = some d) :
    0 < countDate df col d := by
  rcases h with ⟨r, hr, hd⟩
  have : r ∈ df.rows.filter (fun r => rowDate df.cols col r = some d) :=
    List.mem_filter.mpr ⟨hr, by simp [hd]⟩
  unfold countDate
  exact List.length_pos.mpr (List.ne_nil_of_mem this)

/-- The null-last descending comparison is total. -/
lemma ordGE_total (a b : Option Int) : ordGE a b = true ∨ ordGE b a = true := by
  cases a with
  | none => cases b <;> simp [ordGE]
  | some x =>
    cases b with
    | none => simp [ordGE]
    | some y => simp only [ordGE, decide_eq_true_eq]; omega

/-- The null-last descending comparison is transitive. -/
lemma ordGE_trans {a b c : Option Int} (h1 : ordGE a b = true)
    (h2 : ordGE b c = true) : ordGE a c = true := by
  cases a <;> cases b <;> cases c <;>
    simp only [ordGE, decide_eq_true_eq, Bool.false_eq_true] at h1 h2 ⊢ <;>
    omega

/-- Inserting a row is a permutation of consing it. -/
lemma perm_insertDesc (cols : List String) (col : String) (r : List Value)
    (l : List (List Value)) : (insertDesc cols col r l).Perm (r :: l) := by
  induction l with
  | nil => simp [insertDesc]
  | cons s ss ih =>
    simp only [insertDesc]
    by_cases h : ordGE (tsKey cols col r) (tsKey cols col s) = true
    · rw [if_pos h]
    · rw [if_neg h]
      exact (List.Perm.cons s ih).trans (List.Perm.swap r s ss)

/-- The descending sort permutes the original rows. -/
lemma perm_sortDescRows (cols : List String) (col : String)
    (rows : List (List Value)) : (sortDescRows cols col rows).Perm rows := by
  induction rows with
  | nil => simp [sortDescRows]
  | cons r rs ih =>
    simp only [sortDescRows, List.foldr_cons]
    exact (perm_insertDesc cols col r _).trans (List.Perm.cons r ih)

/-- Inserting into a descending-sorted list keeps it descending-sorted. -/
lemma pairwise_insertDesc {cols : List String} {col : String}
    {r : List Value} {l : List (List Value)}
    (h : l.Pairwise (fun a b => ordGE (tsKey cols col a) (tsKey cols col b) = true)) :
    (insertDesc cols col r l).Pairwise
      (fun a b => ordGE (tsKey cols col a) (tsKey cols col b) = true) := by
  induction l with
  | nil => simp [insertDesc]
  | cons s ss ih =>
    rcases List.pairwise_cons.mp h with ⟨hs, hss⟩
    simp only [insertDesc]
    by_cases hcmp : ordGE (tsKey cols col r) (tsKey cols col s) = true
    · rw [if_pos hcmp]
      refine List.pairwise_cons.mpr ⟨?_, h⟩
      intro b hb
      rcases List.mem_cons.mp hb with rfl | hb'
      · exact hcmp
      · exact ordGE_trans hcmp (hs b hb')
    · rw [if_neg hcmp]
      have hsr : ordGE (tsKey cols col s) (tsKey cols col r) = true := by
        rcases ordGE_total (tsKey cols col r) (tsKey cols col s) with h' | h'
        · exact absurd h' hcmp
        · exact h'
      refine List.pairwise_cons.mpr ⟨?_, ih hss⟩
      intro b hb
      have : b ∈ r :: ss := (perm_insertDesc cols col r ss).mem_iff.mp hb
      rcases List.mem_cons.mp this with rfl | hb'
      · exact hsr
      · exact hs b hb'

/-- The descending sort is descending-sorted. -/
lemma pairwise_sortDescRows (cols : List String) (col : String)
    (rows : List (List Value)) :
    (sortDescRows cols col rows).Pairwise
      (fun a b => ordGE (tsKey cols col a) (tsKey cols col b) = true) := by
  induction rows with
  | nil => simp [sortDescRows]
  | cons r rs ih =>
    simp only [sortDescRows, List.foldr_cons]
    exact pairwise_insertDesc ih

/-! ## Claim theorems -/

/-- C6: every CanonicalTable produced by normalization has every declared
column present on every row (null backfilled where the raw record lacked the
field), so a lookup of a declared column never fails on a missing key. -/
theorem canonical_tables_column_complete (p : String → Option Int)
    (fetch : Except String (List (List (String × Value)))) (resp : FetchResult) :
    (∀ row ∈ (load_azure_table_data p fetch).table.rows,
        row.length = (load_azure_table_data p fetch).table.cols.length) ∧
    (∀ row ∈ (load_loganalytics_data p resp).table.rows,
        row.length = (load_loganalytics_data p resp).table.cols.length) ∧
    (∀ (cols : List String) (row : List Value) (c : String),
        c ∈ cols → row.length = cols.length → (rowGet cols row c).isSome) :=
  ⟨load_azure_aligned p fetch, load_loganalytics_aligned p resp,
   fun _ _ _ hc hlen => rowGet_isSome_of_mem hc hlen⟩

/-- Witness for C6: on a concrete aligned row, looking up a declared column
succeeds. -/
theorem canonical_tables_column_complete_witness :
    (rowGet ["TimeAlertReceived", "Source"] [Value.null, Value.str "A"]
      "Source").isSome :=
  (canonical_tables_column_complete (fun _ => none) (.ok []) .badJson).2.2
    ["TimeAlertReceived", "Source"] [Value.null, Value.str "A"] "Source"
    (by decide) (by decide)

/-- C7: for a fixed table and fixed now, the windowed alert count is
monotonically non-increasing as the window shrinks; in particular the
24-hour count never exceeds the 7-day count. -/
theorem windowedCount_monotone (df : DataFrame) (now w₁ w₂ : Int)
    (h : w₁ ≤ w₂) :
    windowedCount df now w₁ ≤ windowedCount df now w₂ ∧
    windowedCount df now oneDay ≤ windowedCount df now sevenDays := by
  have key : ∀ u v : Int, u ≤ v →
      windowedCount df now u ≤ windowedCount df now v := by
    intro u v huv
    unfold windowedCount pastWindow
    apply length_filter_mono
    intro r hp
    cases htk : tsKey df.cols "TimeAlertReceived" r with
    | none => rw [htk] at hp; cases hp
    | some t =>
      rw [htk] at hp
      have hle : now - u ≤ t := of_decide_eq_true hp
      exact decide_eq_true (show now - v ≤ t by omega)
  exact ⟨key w₁ w₂ h, key oneDay sevenDays (by norm_num [oneDay, sevenDays])⟩

/-- Witness for C7: on a concrete table the 1-hour count is bounded by the
2-hour count. -/
theorem windowedCount_monotone_witness :
    windowedCount (DataFrame.mk ["TimeAlertReceived"]
      [[Value.ts 800000], [Value.null]]) 864000 3600 ≤
    windowedCount (DataFrame.mk ["TimeAlertReceived"]
      [[Value.ts 800000], [Value.null]]) 864000 7200 :=
  (windowedCount_monotone (DataFrame.mk ["TimeAlertReceived"]
      [[Value.ts 800000], [Value.null]]) 864000 3600 7200 (by decide)).1

/-- C8: the trend series over the alert timestamp column has strictly
ascending dates, each date's count equals exactly the number of rows whose
normalized timestamp falls on that UTC calendar date, no listed date has a
zero count, and every date carried by at least one row is listed. -/
theorem trend_df_spec (df : DataFrame) :
    ((trend_df df "TimeAlertReceived").Pairwise (fun a b => a.1 < b.1)) ∧
    (∀ pr ∈ trend_df df "TimeAlertReceived",
        pr.2 = countDate df "TimeAlertReceived" pr.1 ∧ 0 < pr.2) ∧
    (∀ d : Int, 0 < countDate df "TimeAlertReceived" d →
        d ∈ (trend_df df "TimeAlertReceived").map Prod.fst) := by
  refine ⟨?_, ?_, ?_⟩
  · unfold trend_df
    rw [List.pairwise_map]
    simpa using pairwise_sortedDates df "TimeAlertReceived"
  · intro pr hpr
    rcases List.mem_map.mp hpr with ⟨d, hd, rfl⟩
    exact ⟨rfl, countDate_pos (mem_sortedDates.mp hd)⟩
  · intro d hd
    unfold trend_df
    rw [List.map_map]
    have : (fun x => (Prod.fst ∘ fun d => (d, countDate df "TimeAlertReceived" d)) x)
        = fun x : Int => x := rfl
    simp only [this, List.map_id_fun', id]
    unfold countDate at hd
    rcases List.exists_mem_of_length_pos hd with ⟨r, hr⟩
    rcases List.mem_filter.mp hr with ⟨hrmem, hrd⟩
    exact mem_sortedDates.mpr ⟨r, hrmem, of_decide_eq_true hrd⟩

/-- Witness for C8: on a concrete table with two rows on epoch day 1, day 1
appears among the trend dates. -/
theorem trend_df_spec_witness :
    (1 : Int) ∈ (trend_df (DataFrame.mk ["TimeAlertReceived"]
      [[Value.ts 0], [Value.ts 86400], [Value.ts 90000]])
      "TimeAlertReceived").map Prod.fst :=
  (trend_df_spec (DataFrame.mk ["TimeAlertReceived"]
      [[Value.ts 0], [Value.ts 86400], [Value.ts 90000]])).2.2 1 (by decide)

/-- C9: the query loader builds its result exclusively from the first table
of the envelope: any further tables may be replaced or dropped without
changing the result. -/
theorem loganalytics_first_table_only (p : String → Option Int) (t : QTable)
    (rest rest' : List QTable) :
    load_loganalytics_data p (.ok (some (t :: rest))) =
      load_loganalytics_data p (.ok (some (t :: rest'))) ∧
    load_loganalytics_data p (.ok (some (t :: rest))) =
      load_loganalytics_data p (.ok (some [t])) := ⟨rfl, rfl⟩

/-- C10: the Recent Activity projection returns at most 5 rows (exactly
`min 5 n`), sorted descending by `TimeAlertReceived` (nulls last), the
returned rows together with the dropped ones permute the original table, and
every returned row's timestamp key is ≥ every dropped row's. -/
theorem recent_alerts_spec (df : DataFrame) :
    (recent_alerts df).rows.length ≤ 5 ∧
    (recent_alerts df).rows.length = min 5 df.rows.length ∧
    ((recent_alerts df).rows.Pairwise (fun a b =>
        ordGE (tsKey df.cols "TimeAlertReceived" a)
          (tsKey df.cols "TimeAlertReceived" b) = true)) ∧
    ((recent_alerts df).rows ++
        (sortDescRows df.cols "TimeAlertReceived" df.rows).drop 5).Perm
      df.rows ∧
    (∀ r ∈ (recent_alerts df).rows,
      ∀ s ∈ (sortDescRows df.cols "TimeAlertReceived" df.rows).drop 5,
        ordGE (tsKey df.cols "TimeAlertReceived" r)
          (tsKey df.cols "TimeAlertReceived" s) = true) := by
  have hperm := perm_sortDescRows df.cols "TimeAlertReceived" df.rows
  have hpw := pairwise_sortDescRows df.cols "TimeAlertReceived" df.rows
  have hsplit := List.take_append_drop 5
    (sortDescRows df.cols "TimeAlertReceived" df.rows)
  refine ⟨?_, ?_, ?_, ?_, ?_⟩
  · exact List.length_take_le 5 _
  · simp only [recent_alerts, List.length_take]
    rw [hperm.length_eq]
  · exact List.Pairwise.sublist (List.take_sublist 5 _) hpw
  · simp only [recent_alerts]
    rw [hsplit]
    exact hperm
  · rw [← hsplit] at hpw
    exact fun r hr s hs => (List.pairwise_append.mp hpw).2.2 r hr s hs

/-- Witness for C10: on a concrete 7-row table, a kept row's key dominates a
dropped row's key. -/
theorem recent_alerts_spec_witness :
    ordGE (tsKey ["TimeAlertReceived"] "TimeAlertReceived" [Value.ts 9])
      (tsKey ["TimeAlertReceived"] "TimeAlertReceived" [Value.ts 1]) = true :=
  (recent_alerts_spec (DataFrame.mk ["TimeAlertReceived"]
      [[Value.ts 1], [Value.ts 5], [Value.ts 3], [Value.null], [Value.ts 9],
       [Value.ts 2], [Value.ts 7]])).2.2.2.2
    [Value.ts 9] (by decide) [Value.ts 1] (by decide)

/-- C1 counterexample: on a fetch failure with no cached entry, the alert
loader returns a table EQUAL to the one it returns for a source that
yielded zero records (the empty frame), and the query loader likewise
returns the empty frame on an HTTP failure — the failure is not propagated,
so the caller cannot distinguish "source failed" from "zero records". -/
theorem load_failure_returns_empty_counterexample :
    (load_azure_table_data (fun _ => none)
        (.error "connection failure")).table =
      (load_azure_table_data (fun _ => none) (.ok [])).table ∧
    (load_azure_table_data (fun _ => none)
        (.error "connection failure")).table = DataFrame.empty ∧
    (load_loganalytics_data (fun _ => none) (.httpError 500)).table =
      DataFrame.empty := ⟨rfl, rfl, rfl⟩

/-- C1 amended: if the underlying fetch fails, the loader does NOT propagate
the failure to the caller: it displays an error message and returns an
empty table (the same table value a zero-record source produces). -/
theorem load_failure_returns_empty_amended (p : String → Option Int)
    (e : String) (s : Nat) :
    load_azure_table_data p (.error e) = ⟨DataFrame.empty, some .error⟩ ∧
    load_loganalytics_data p (.httpError s) = ⟨DataFrame.empty, some .error⟩ :=
  ⟨rfl, rfl⟩

/-- C2 counterexample: the spec's own scenario — an envelope with columns
`["timestamp","success"]` and one row `[["2024-05-01T10:00:00Z","0"]]` —
normalizes `success` to TRUE, not false: `astype(bool)` is Python
truthiness and the string "0" is non-empty. -/
theorem success_zero_string_counterexample :
    (load_loganalytics_data
        (fun s => if s = "2024-05-01T10:00:00Z" then some 1714557600 else none)
        (.ok (some [⟨["timestamp", "success"],
          [[Value.str "2024-05-01T10:00:00Z", Value.str "0"]]⟩]))).table.rows =
      [[Value.ts 1714557600, Value.bool true]] := rfl

/-- C2 amended: `success` is coerced with Python truthiness (`astype(bool)`):
native booleans are preserved and numeric 1/0 normalize to true/false, but
any non-empty string — including "0" and "false" — normalizes to true. -/
theorem success_coercion_amended (p : String → Option Int) (t₀ : Int)
    (v : Value) :
    (load_loganalytics_data p (.ok (some [⟨["timestamp", "success"],
        [[Value.ts t₀, v]]⟩]))).table.rows =
      [[Value.ts t₀, Value.bool (pyBool v)]] ∧
    pyBool (Value.bool true) = true ∧ pyBool (Value.bool false) = false ∧
    pyBool (Value.int 1) = true ∧ pyBool (Value.int 0) = false ∧
    pyBool (Value.str "true") = true ∧ pyBool (Value.str "false") = true ∧
    pyBool (Value.str "0") = true ∧ pyBool (Value.str "") = false :=
  ⟨rfl, rfl, rfl, rfl, rfl, by decide, by decide, by decide, by decide⟩

/-- C3 counterexample: a record whose `TimeAlertReceived` fails to parse is
NOT normalized to a null timestamp — the column conversion raises, the
loader's catch-all turns the whole load into an empty table plus an error,
and the record (and every other record) is lost. -/
theorem unparseable_timestamp_counterexample :
    load_azure_table_data (fun _ => none)
      (.ok [[("TimeAlertReceived", Value.str "not-a-date"),
             ("Source", Value.str "A")]]) =
      ⟨DataFrame.empty, some .error⟩ ∧
    toDatetimeValue (fun _ => none) (Value.str "not-a-date") =
      .error "unparseable datetime string" := ⟨rfl, rfl⟩

/-- C3 amended: a null timestamp value normalizes to null and every
time-windowed view excludes rows whose timestamp key is null; but a
non-null value that fails to parse makes `pd.to_datetime` raise, so the
loader fails the ENTIRE load (empty table, error message) instead of
setting that field to null. -/
theorem timestamp_handling_amended (p : String → Option Int) (s : String)
    (hs : p s = none) :
    toDatetimeValue p Value.null = .ok Value.null ∧
    (∀ (df : DataFrame) (col : String) (cutoff : Int),
        ∀ row ∈ (pastWindow df col cutoff).rows,
          (tsKey df.cols col row).isSome) ∧
    load_azure_table_data p (.ok [[("TimeAlertReceived", Value.str s)]]) =
      ⟨DataFrame.empty, some .error⟩ := by
  refine ⟨rfl, ?_, ?_⟩
  · intro df col cutoff row hrow
    simp only [pastWindow] at hrow
    rcases List.mem_filter.mp hrow with ⟨_, hpred⟩
    cases htk : tsKey df.cols col row with
    | none => rw [htk] at hpred; cases hpred
    | some t => rfl
  · simp [load_azure_table_data, fromRecords, unionKeys, addKeys, recordRow,
      lookupKey, mapColE, mapRowsE, mapRowAtE, toDatetimeValue, Except.map, hs]

/-- Witness for the amended C3: with a parser rejecting "not-a-date", the
load of a single such record fails whole. -/
theorem timestamp_handling_amended_witness :
    load_azure_table_data (fun _ => none)
      (.ok [[("TimeAlertReceived", Value.str "not-a-date")]]) =
      ⟨DataFrame.empty, some MsgKind.error⟩ :=
  (timestamp_handling_amended (fun _ => none) "not-a-date" rfl).2.2

/-- C4 counterexample: a network/HTTP failure does not yield a failure value
distinct from success — the fetch returns a table, and that table is EQUAL
to the one returned for a perfectly valid envelope whose result table has
zero rows and zero columns. -/
theorem failure_classes_counterexample :
    (load_loganalytics_data (fun _ => none) (.httpError 500)).table =
      (load_loganalytics_data (fun _ => none)
        (.ok (some [⟨[], []⟩]))).table ∧
    (load_loganalytics_data (fun _ => none) .badJson).table =
      (load_loganalytics_data (fun _ => none) (.httpError 500)).table :=
  ⟨rfl, rfl⟩

/-- C4 amended: every failure class returns an empty table; the classes are
told apart only by the displayed message — network/HTTP failure and a
non-JSON body display an error, an envelope without a non-empty `tables`
list displays a warning — while a valid envelope whose first table has zero
rows is not a failure: its (empty-rowed) table is returned with no message. -/
theorem failure_classes_amended (p : String → Option Int) (s : Nat)
    (cols : List String) :
    load_loganalytics_data p (.httpError s) = ⟨DataFrame.empty, some .error⟩ ∧
    load_loganalytics_data p .badJson = ⟨DataFrame.empty, some .error⟩ ∧
    load_loganalytics_data p (.ok none) = ⟨DataFrame.empty, some .warning⟩ ∧
    load_loganalytics_data p (.ok (some [])) =
      ⟨DataFrame.empty, some .warning⟩ ∧
    load_loganalytics_data p (.ok (some [⟨cols, []⟩])) = ⟨⟨cols, []⟩, none⟩ := by
  refine ⟨rfl, rfl, rfl, rfl, ?_⟩
  by_cases hts : "timestamp" ∈ cols <;> by_cases hsc : "success" ∈ cols <;>
    simp [load_loganalytics_data, mapColE, mapRowsE, mapCol, hts, hsc]

/-- C5 counterexample: severity code 4 is NOT mapped to a label — the
static mapping has no entry for 4 (`lookupInt 4 SEVERITY_LEVELS = none`),
so normalization passes the raw 4 through unchanged instead of producing a
"Low" label. -/
theorem severity_four_counterexample :
    (load_azure_table_data (fun _ => none)
        (.ok [[("SeverityLevel", Value.int 4)]])).table =
      ⟨["SeverityLevel"], [[Value.int 4]]⟩ ∧
    mapSeverityValue (Value.int 4) = Value.int 4 ∧
    lookupInt 4 SEVERITY_LEVELS = none := ⟨rfl, rfl, rfl⟩

/-- C5 amended: the static mapping is exactly 1→Critical, 2→Warning,
3→Info (no entry for 4); normalization rewrites each `SeverityLevel` cell
with this mapping and every value outside it — unmapped integer codes such
as 4, and non-integer values — passes through with its original raw value
preserved unchanged. -/
theorem severity_mapping_amended (p : String → Option Int) (v : Value)
    (n : Int) (h1 : n ≠ 1) (h2 : n ≠ 2) (h3 : n ≠ 3) :
    (load_azure_table_data p (.ok [[("SeverityLevel", v)]])).table =
      ⟨["SeverityLevel"], [[mapSeverityValue v]]⟩ ∧
    mapSeverityValue (Value.int 1) = Value.str "Critical" ∧
    mapSeverityValue (Value.int 2) = Value.str "Warning" ∧
    mapSeverityValue (Value.int 3) = Value.str "Info" ∧
    mapSeverityValue (Value.int n) = Value.int n ∧
    (∀ w : Value, (∀ m : Int, w ≠ Value.int m) → mapSeverityValue w = w) := by
  refine ⟨rfl, rfl, rfl, rfl, ?_, ?_⟩
  · have hl : lookupInt n SEVERITY_LEVELS = none := by
      simp only [SEVERITY_LEVELS, lookupInt]
      rw [if_neg (by omega), if_neg (by omega), if_neg (by omega)]
    simp [mapSeverityValue, hl]
  · intro w hw
    cases w with
    | int m => exact absurd rfl (hw m)
    | null => rfl
    | str s => rfl
    | bool b => rfl
    | ts t => rfl

/-- Witness for the amended C5: code 9 in a record passes through, and code
4 is unmapped. -/
theorem severity_mapping_amended_witness :
    mapSeverityValue (Value.int 4) = Value.int 4 ∧
    (load_azure_table_data (fun _ => none)
        (.ok [[("SeverityLevel", Value.int 9)]])).table =
      ⟨["SeverityLevel"], [[mapSeverityValue (Value.int 9)]]⟩ :=
  ⟨(severity_mapping_amended (fun _ => none) (Value.int 9) 4
      (by decide) (by decide) (by decide)).2.2.2.2.1,
   (severity_mapping_amended (fun _ => none) (Value.int 9) 4
      (by decide) (by decide) (by decide)).1⟩
